import Mathlib

/-!
Verification of the wordzyBack game backend.

The definitions below are shallow embeddings of the JavaScript source:
`src/sockets/game.socket.js` (GameSocketHandler), `src/sockets/index.js`
(authentication), `src/services/wordService.js` (word supplier) and
`src/controllers/room.controllers.js` (room join).  Feedback marks use the
source encoding 0 = NONE (wrong), 1 = MISPLACED (wrong position),
2 = EXACT (correct).
-/

namespace Wordzy

/-! ## Feedback algorithm: `generateWordFeedback` (game.socket.js 907-932)

Pass 1 walks guess and target positionally; on an exact match it emits mark 2
and replaces the target letter by `none` (the source assigns `null`).
Pass 2 walks the remaining positions; `consume` models
`targetLetters.indexOf(guessLetters[i])` followed by nulling that index:
it replaces the first `some` cell holding the guessed letter by `none`. -/

def pass1 : List Char → List Char → List Nat × List (Option Char)
  | g :: gs, t :: ts =>
      if g = t then (2 :: (pass1 gs ts).1, none :: (pass1 gs ts).2)
      else (0 :: (pass1 gs ts).1, some t :: (pass1 gs ts).2)
  | _, _ => ([], [])

def consume (g : Char) : List (Option Char) → Option (List (Option Char))
  | [] => none
  | some d :: rest =>
      if d = g then some (none :: rest)
      else Option.map (fun l => some d :: l) (consume g rest)
  | none :: rest => Option.map (fun l => (none : Option Char) :: l) (consume g rest)

def pass2 : List Nat → List Char → List (Option Char) → List Nat × List (Option Char)
  | f :: fs, g :: gs, rem =>
      if f = 0 then
        match consume g rem with
        | some rem2 => (1 :: (pass2 fs gs rem2).1, (pass2 fs gs rem2).2)
        | none => (0 :: (pass2 fs gs rem).1, (pass2 fs gs rem).2)
      else (f :: (pass2 fs gs rem).1, (pass2 fs gs rem).2)
  | _, _, rem => ([], rem)

def generateWordFeedback (guess target : List Char) : List Nat :=
  (pass2 (pass1 guess target).1 guess (pass1 guess target).2).1

/-- Number of occurrences of `c` in a word. -/
def charCount (c : Char) : List Char → Nat
  | [] => 0
  | t :: ts => (if t = c then 1 else 0) + charCount c ts

/-- Number of unconsumed (`some`) occurrences of `c` in the working target. -/
def optCount (c : Char) : List (Option Char) → Nat
  | [] => 0
  | some t :: ts => (if t = c then 1 else 0) + optCount c ts
  | none :: ts => optCount c ts

/-- Number of positions whose guessed letter is `c` and whose mark is not NONE. -/
def markedCount (c : Char) : List Nat → List Char → Nat
  | f :: fs, g :: gs => (if f ≠ 0 ∧ g = c then 1 else 0) + markedCount c fs gs
  | _, _ => 0

theorem consume_count (c g : Char) : ∀ (rem rem2 : List (Option Char)),
    consume g rem = some rem2 →
    optCount c rem2 + (if g = c then 1 else 0) = optCount c rem := by
  intro rem
  induction rem with
  | nil => intro rem2 h; simp [consume] at h
  | cons x rest ih =>
      intro rem2 h
      match x with
      | some d =>
          by_cases hdg : d = g
          · simp [consume, hdg] at h
            subst h
            simp [optCount, hdg]
            omega
          · simp [consume, hdg] at h
            obtain ⟨l, hl, hrem2⟩ := h
            subst hrem2
            have := ih l hl
            simp [optCount]
            omega
      | none =>
          simp [consume] at h
          obtain ⟨l, hl, hrem2⟩ := h
          subst hrem2
          have := ih l hl
          simp [optCount]
          omega

theorem pass1_count (c : Char) : ∀ (gs ts : List Char), gs.length = ts.length →
    markedCount c (pass1 gs ts).1 gs + optCount c (pass1 gs ts).2 = charCount c ts := by
  intro gs
  induction gs with
  | nil =>
      intro ts h
      have : ts = [] := by cases ts <;> simp_all
      subst this
      simp [pass1, markedCount, optCount, charCount]
  | cons g gs ih =>
      intro ts h
      match ts with
      | [] => simp at h
      | t :: ts =>
          have hlen : gs.length = ts.length := by simpa using h
          have := ih ts hlen
          by_cases hgt : g = t
          · subst hgt
            simp [pass1, markedCount, optCount, charCount]
            by_cases hgc : g = c <;> simp [hgc] <;> omega
          · simp [pass1, hgt, markedCount, optCount, charCount]
            by_cases htc : t = c <;> simp [htc] <;> omega

theorem pass2_count (c : Char) : ∀ (fs : List Nat) (gs : List Char) (rem : List (Option Char)),
    markedCount c (pass2 fs gs rem).1 gs + optCount c (pass2 fs gs rem).2 =
      markedCount c fs gs + optCount c rem := by
  intro fs
  induction fs with
  | nil => intro gs rem; cases gs <;> simp [pass2, markedCount]
  | cons f fs ih =>
      intro gs rem
      match gs with
      | [] => simp [pass2, markedCount]
      | g :: gs =>
          by_cases hf : f = 0
          · subst hf
            cases hcons : consume g rem with
            | some rem2 =>
                have hc := consume_count c g rem rem2 hcons
                have := ih gs rem2
                simp [pass2, hcons, markedCount]
                by_cases hgc : g = c <;> simp [hgc] at hc ⊢ <;> omega
            | none =>
                have := ih gs rem
                simp [pass2, hcons, markedCount]
                omega
          · have := ih gs rem
            simp [pass2, hf, markedCount]
            omega

theorem pass1_length : ∀ (gs ts : List Char), gs.length = ts.length →
    (pass1 gs ts).1.length = gs.length := by
  intro gs
  induction gs with
  | nil => intro ts h; simp [pass1]
  | cons g gs ih =>
      intro ts h
      match ts with
      | [] => simp at h
      | t :: ts =>
          have hlen : gs.length = ts.length := by simpa using h
          by_cases hgt : g = t <;> simp [pass1, hgt, ih ts hlen]

theorem pass2_length : ∀ (fs : List Nat) (gs : List Char) (rem : List (Option Char)),
    (pass2 fs gs rem).1.length = min fs.length gs.length := by
  intro fs
  induction fs with
  | nil => intro gs rem; cases gs <;> simp [pass2]
  | cons f fs ih =>
      intro gs rem
      match gs with
      | [] => simp [pass2]
      | g :: gs =>
          by_cases hf : f = 0
          · subst hf
            cases hcons : consume g rem with
            | some rem2 => simp [pass2, hcons, ih]; omega
            | none => simp [pass2, hcons, ih]; omega
          · simp [pass2, hf, ih]
            omega

theorem pass1_marks : ∀ (gs ts : List Char), ∀ f ∈ (pass1 gs ts).1, f = 0 ∨ f = 2 := by
  intro gs
  induction gs with
  | nil => intro ts f hf; simp [pass1] at hf
  | cons g gs ih =>
      intro ts f hf
      match ts with
      | [] => simp [pass1] at hf
      | t :: ts =>
          by_cases hgt : g = t <;> simp [pass1, hgt] at hf <;>
            rcases hf with hf | hf <;> first | (left; omega) | (right; omega) | exact ih ts f hf

theorem pass2_marks : ∀ (fs : List Nat) (gs : List Char) (rem : List (Option Char)),
    (∀ f ∈ fs, f = 0 ∨ f = 2) → ∀ f ∈ (pass2 fs gs rem).1, f = 0 ∨ f = 1 ∨ f = 2 := by
  intro fs
  induction fs with
  | nil => intro gs rem _ f hf; cases gs <;> simp [pass2] at hf
  | cons f0 fs ih =>
      intro gs rem hall f hf
      have hall0 : f0 = 0 ∨ f0 = 2 := hall f0 (by simp)
      have halltl : ∀ f ∈ fs, f = 0 ∨ f = 2 := fun f hf => hall f (by simp [hf])
      match gs with
      | [] => simp [pass2] at hf
      | g :: gs =>
          by_cases hf0 : f0 = 0
          · subst hf0
            cases hcons : consume g rem with
            | some rem2 =>
                simp [pass2, hcons] at hf
                rcases hf with hf | hf
                · omega
                · exact ih gs rem2 halltl f hf
            | none =>
                simp [pass2, hcons] at hf
                rcases hf with hf | hf
                · omega
                · exact ih gs rem halltl f hf
          · simp [pass2, hf0] at hf
            rcases hf with hf | hf
            · subst hf; omega
            · exact ih gs rem halltl f hf

/-- **C1.** For every 5-letter guess and 5-letter target, `generateWordFeedback`
returns a length-5 list of marks in {0 = NONE, 1 = MISPLACED, 2 = EXACT}, and
for every letter `c` the number of positions of `c` marked EXACT or MISPLACED
never exceeds the number of occurrences of `c` in the target. -/
theorem feedback_two_pass_sound (guess target : List Char)
    (hg : guess.length = 5) (ht : target.length = 5) :
    (generateWordFeedback guess target).length = 5 ∧
    (∀ f ∈ generateWordFeedback guess target, f = 0 ∨ f = 1 ∨ f = 2) ∧
    (∀ c : Char, markedCount c (generateWordFeedback guess target) guess ≤ charCount c target) := by
  have hlen : guess.length = target.length := by omega
  refine ⟨?_, ?_, ?_⟩
  · unfold generateWordFeedback
    rw [pass2_length, pass1_length guess target hlen, hg]
    omega
  · intro f hf
    exact pass2_marks (pass1 guess target).1 guess (pass1 guess target).2
      (pass1_marks guess target) f hf
  · intro c
    have h2 := pass2_count c (pass1 guess target).1 guess (pass1 guess target).2
    have h1 := pass1_count c guess target hlen
    unfold generateWordFeedback
    omega

/-- Witness for C1 at the spec example guess ERASE against target SPEED. -/
theorem feedback_two_pass_sound_witness :
    (['E','R','A','S','E'] : List Char).length = 5 ∧
    ((generateWordFeedback ['E','R','A','S','E'] ['S','P','E','E','D']).length = 5 ∧
    (∀ f ∈ generateWordFeedback ['E','R','A','S','E'] ['S','P','E','E','D'],
      f = 0 ∨ f = 1 ∨ f = 2) ∧
    (∀ c : Char, markedCount c (generateWordFeedback ['E','R','A','S','E'] ['S','P','E','E','D'])
      ['E','R','A','S','E'] ≤ charCount c ['S','P','E','E','D'])) :=
  ⟨rfl, feedback_two_pass_sound ['E','R','A','S','E'] ['S','P','E','E','D'] rfl rfl⟩

/-! ## Game session data model (game.socket.js 259-289)

Player status strings from the source: active / solved / failed; game status
strings: waiting / active / finished.  Times are milliseconds since the epoch
(`Date.now()`), modelled as naturals. -/

inductive PStatus
  | active
  | solved
  | failed
deriving DecidableEq, Repr

inductive GStatus
  | waiting
  | active
  | finished
deriving DecidableEq, Repr

structure PlayerState where
  playerId : String
  username : String
  guesses : List (List Char)
  currentGuess : List Char
  isSolved : Bool
  solveTime : Option Nat
  solveAttempts : Option Nat
  rank : Option Nat
  status : PStatus
  failedTime : Option Nat
deriving DecidableEq, Repr

structure GameState where
  roomId : String
  category : String
  targetWord : List Char
  gameStatus : GStatus
  gameStartTime : Nat
  timeLimit : Nat
  players : List PlayerState
deriving DecidableEq, Repr

/-- JS `x || y` on a nullable number: both `null` and `0` are falsy. -/
def jsOrOpt (x : Option Nat) (y : Nat) : Nat :=
  match x with
  | some v => if v = 0 then y else v
  | none => y

/-- JS `n || d` on a number: `0` is falsy. -/
def jsOrNat (n d : Nat) : Nat := if n = 0 then d else n

/-! ## Finalization: `endGame` ranking (game.socket.js 726-763) -/

/-- The loop at lines 739-744: players still active and unsolved when the
round ends are marked failed with the elapsed time and their guess count
(defaulting to 6 when it is 0, since JS `||` treats 0 as falsy). -/
def forceFail (now start : Nat) (p : PlayerState) : PlayerState :=
  if p.status = PStatus.active ∧ p.isSolved = false then
    { p with status := PStatus.failed,
             failedTime := some (now - start),
             solveTime := some (now - start),
             solveAttempts := some (jsOrNat p.guesses.length 6) }
  else p

/-- Filter at line 727: `p.isSolved`. -/
def solvedFilter (p : PlayerState) : Bool := p.isSolved

/-- Filter at line 747: `!p.isSolved && (p.status === 'failed' || p.guesses.length >= 6)`. -/
def failedFilter (p : PlayerState) : Bool :=
  !p.isSolved && (p.status == PStatus.failed || decide (6 ≤ p.guesses.length))

/-- Solved comparator (lines 728-735): ascending solve time, ties broken by
fewer attempts. -/
def solvedLe (a b : PlayerState) : Bool :=
  if a.solveTime.getD 0 ≠ b.solveTime.getD 0 then
    decide (a.solveTime.getD 0 ≤ b.solveTime.getD 0)
  else decide (a.solveAttempts.getD 0 ≤ b.solveAttempts.getD 0)

/-- Time a failed player accumulated (lines 751-752):
`a.failedTime || a.solveTime || (Date.now() - gameStartTime)`. -/
def failedTimeOf (now start : Nat) (p : PlayerState) : Nat :=
  jsOrOpt p.failedTime (jsOrOpt p.solveTime (now - start))

/-- Failed comparator (lines 748-754): descending accumulated time. -/
def failedLe (now start : Nat) (a b : PlayerState) : Bool :=
  decide (failedTimeOf now start b ≤ failedTimeOf now start a)

/-- Rank assignment loops at lines 757-763: position in the sorted list,
starting from `k`. -/
def assignRanksFrom (k : Nat) : List PlayerState → List PlayerState
  | [] => []
  | p :: ps => { p with rank := some k } :: assignRanksFrom (k + 1) ps

/-- The ranked concatenation `[...solvedPlayers, ...failedPlayers]` produced by
`endGame` (lines 726-763): solved players sorted and ranked from 1, failed
players (after the force-fail loop) sorted and ranked from `solved.length+1`.
In the source the solved list is filtered before the force-fail loop, but the
loop never touches a solved player, so the elements coincide
(`filter_solved_forceFail` below records this). -/
def endGameRank (players : List PlayerState) (now start : Nat) : List PlayerState :=
  let solved := (players.filter solvedFilter).mergeSort solvedLe
  let players2 := players.map (forceFail now start)
  let failed := (players2.filter failedFilter).mergeSort (failedLe now start)
  assignRanksFrom 1 solved ++ assignRanksFrom (solved.length + 1) failed

theorem forceFail_playerId (now start : Nat) (p : PlayerState) :
    (forceFail now start p).playerId = p.playerId := by
  unfold forceFail
  split <;> rfl

theorem forceFail_isSolved (now start : Nat) (p : PlayerState) :
    (forceFail now start p).isSolved = p.isSolved := by
  unfold forceFail
  split <;> rfl

theorem filter_solved_forceFail (now start : Nat) (players : List PlayerState) :
    (players.map (forceFail now start)).filter solvedFilter = players.filter solvedFilter := by
  induction players with
  | nil => rfl
  | cons p ps ih =>
      by_cases hs : p.isSolved
      · have hid : forceFail now start p = p := by
          unfold forceFail
          simp [hs]
        simp [List.filter, hid, solvedFilter, hs, ih]
      · simp [List.filter, solvedFilter, forceFail_isSolved, hs, ih]

theorem assignRanksFrom_map_rank (l : List PlayerState) : ∀ (k : Nat),
    (assignRanksFrom k l).map PlayerState.rank =
      (List.range l.length).map (fun i => some (k + i)) := by
  induction l with
  | nil => intro k; simp [assignRanksFrom]
  | cons p ps ih =>
      intro k
      simp [assignRanksFrom, ih (k + 1), List.range_succ_eq_map, List.map_map]
      intro i hi
      omega

theorem assignRanksFrom_map_playerId (l : List PlayerState) : ∀ (k : Nat),
    (assignRanksFrom k l).map PlayerState.playerId = l.map PlayerState.playerId := by
  induction l with
  | nil => intro k; simp [assignRanksFrom]
  | cons p ps ih => intro k; simp [assignRanksFrom, ih (k + 1)]

theorem endGameRank_def (players : List PlayerState) (now start : Nat) :
    endGameRank players now start =
      assignRanksFrom 1 ((players.filter solvedFilter).mergeSort solvedLe) ++
      assignRanksFrom (((players.filter solvedFilter).mergeSort solvedLe).length + 1)
        (((players.map (forceFail now start)).filter failedFilter).mergeSort
          (failedLe now start)) := rfl

/-- On the force-failed player list, the failed filter is exactly the
complement of the solved filter, provided the session invariant
`isSolved ↔ status = solved` held before finalization. -/
theorem failedFilter_complement (players : List PlayerState) (now start : Nat)
    (hw : ∀ p ∈ players, p.isSolved = true ↔ p.status = PStatus.solved) :
    ∀ q ∈ players.map (forceFail now start), failedFilter q = !solvedFilter q := by
  intro q hq
  obtain ⟨p, hp, rfl⟩ := List.mem_map.mp hq
  have hwp := hw p hp
  by_cases hs : p.isSolved
  · have hfix : forceFail now start p = p := by
      unfold forceFail
      simp [hs]
    rw [hfix]
    simp [failedFilter, solvedFilter, hs]
  · have hst : p.status ≠ PStatus.solved := fun h => hs (hwp.mpr h)
    cases hstat : p.status with
    | active =>
        unfold forceFail
        simp only [Bool.not_eq_true] at hs
        simp [hstat, hs, failedFilter, solvedFilter]
    | solved => exact absurd hstat hst
    | failed =>
        have hfix : forceFail now start p = p := by
          unfold forceFail
          simp [hstat]
        rw [hfix]
        simp only [Bool.not_eq_true] at hs
        simp [failedFilter, solvedFilter, hs, hstat]

/-- **C2.** For every session finalized by `endGame` whose players satisfy the
session invariant `isSolved ↔ status = solved`, the ranks over the ranked list
of the session's N players are exactly 1..N in order (hence a permutation of
1..N with no gaps or duplicates), with solved players ranked first and failed
players (including force-failed ones) after, and the ranked list covers
exactly the session's players. -/
theorem endGame_ranks_permutation (players : List PlayerState) (now start : Nat)
    (hw : ∀ p ∈ players, p.isSolved = true ↔ p.status = PStatus.solved) :
    ((endGameRank players now start).map PlayerState.rank =
      (List.range players.length).map (fun i => some (i + 1))) ∧
    ((endGameRank players now start).map PlayerState.playerId).Perm
      (players.map PlayerState.playerId) := by
  have hfilters : (players.map (forceFail now start)).filter failedFilter =
      (players.map (forceFail now start)).filter (fun q => !solvedFilter q) :=
    List.filter_congr (failedFilter_complement players now start hw)
  have hsolved : (players.map (forceFail now start)).filter solvedFilter =
      players.filter solvedFilter :=
    filter_solved_forceFail now start players
  have hperm0 := List.filter_append_perm solvedFilter (players.map (forceFail now start))
  have hlen : (players.filter solvedFilter).length +
      ((players.map (forceFail now start)).filter failedFilter).length =
        players.length := by
    have hl := hperm0.length_eq
    rw [List.length_append, ← hfilters, hsolved, List.length_map] at hl
    exact hl
  constructor
  · rw [endGameRank_def, List.map_append, assignRanksFrom_map_rank,
      assignRanksFrom_map_rank]
    have hN : players.length =
        ((players.filter solvedFilter).mergeSort solvedLe).length +
        ((((players.map (forceFail now start)).filter failedFilter).mergeSort
          (failedLe now start))).length := by
      rw [List.length_mergeSort, List.length_mergeSort]
      omega
    rw [hN, List.range_add, List.map_append, List.map_map]
    congr 1
    · apply List.map_congr_left
      intro i _
      exact congrArg some (by omega)
    · apply List.map_congr_left
      intro i _
      simp only [Function.comp_apply]
      exact congrArg some (by omega)
  · rw [endGameRank_def, List.map_append, assignRanksFrom_map_playerId,
      assignRanksFrom_map_playerId]
    have h1 := (List.mergeSort_perm (players.filter solvedFilter) solvedLe).map
      PlayerState.playerId
    have h2 := (List.mergeSort_perm
      ((players.map (forceFail now start)).filter failedFilter)
      (failedLe now start)).map PlayerState.playerId
    have h3 : (players.map (forceFail now start)).map PlayerState.playerId =
        players.map PlayerState.playerId := by
      rw [List.map_map]
      apply List.map_congr_left
      intro p _
      exact forceFail_playerId now start p
    have h4 := hperm0.map PlayerState.playerId
    rw [List.map_append, ← hfilters, hsolved] at h4
    have h5 := (h1.append h2).trans h4
    rwa [h3] at h5

/-- A concrete two-player roster: one solved player, one still active. -/
def samplePlayersC2 : List PlayerState :=
  [{ playerId := "a", username := "A", guesses := [['C','R','A','N','E']],
     currentGuess := ['C','R','A','N','E'], isSolved := true,
     solveTime := some 1000, solveAttempts := some 1, rank := none,
     status := PStatus.solved, failedTime := none },
   { playerId := "b", username := "B", guesses := [],
     currentGuess := [], isSolved := false,
     solveTime := none, solveAttempts := none, rank := none,
     status := PStatus.active, failedTime := none }]

/-- Witness for C2: a two-player session where one player solved and the other
was still active at timeout; the assigned ranks are `[some 1, some 2]`. -/
theorem endGame_ranks_permutation_witness :
    (∀ p ∈ samplePlayersC2, p.isSolved = true ↔ p.status = PStatus.solved) ∧
    (((endGameRank samplePlayersC2 300000 0).map PlayerState.rank =
      (List.range samplePlayersC2.length).map (fun i => some (i + 1))) ∧
    ((endGameRank samplePlayersC2 300000 0).map PlayerState.playerId).Perm
      (samplePlayersC2.map PlayerState.playerId)) :=
  ⟨by decide, endGame_ranks_permutation samplePlayersC2 300000 0 (by decide)⟩

/-! ## Guess submission: the `submit-word` handler (game.socket.js 422-539)

The handler mutates the first player whose id matches; `updateFirst` models
that aliasing.  The guard order is exactly the source order: no active game,
player not in game, already solved, word length, attempts exhausted. -/

inductive SubmitOutcome
  | errNoActiveGame
  | errPlayerNotInGame
  | errAlreadySolved
  | errInvalidWordLength
  | errAttemptsExhausted
  | solvedWord
  | playerFailed
  | feedbackSent (fb : List Nat)
deriving DecidableEq, Repr

def updateFirst (pid : String) (f : PlayerState → PlayerState) :
    List PlayerState → List PlayerState
  | [] => []
  | p :: ps => if p.playerId = pid then f p :: ps else p :: updateFirst pid f ps

/-- The mutation applied to the submitting player (lines 461-523): append the
upper-cased guess; if it matches the target mark solved, else if it was the
6th guess mark failed, else stay active. -/
def submitUpdate (gs : GameState) (w : List Char) (now : Nat) (p : PlayerState) : PlayerState :=
  if w.map Char.toUpper = gs.targetWord then
    { p with guesses := p.guesses ++ [w.map Char.toUpper],
             currentGuess := w.map Char.toUpper,
             isSolved := true,
             solveTime := some (now - gs.gameStartTime),
             solveAttempts := some (p.guesses.length + 1),
             status := PStatus.solved }
  else if 6 ≤ p.guesses.length + 1 then
    { p with guesses := p.guesses ++ [w.map Char.toUpper],
             currentGuess := w.map Char.toUpper,
             isSolved := false,
             status := PStatus.failed,
             solveTime := some (now - gs.gameStartTime),
             solveAttempts := some 6,
             failedTime := some (now - gs.gameStartTime) }
  else
    { p with guesses := p.guesses ++ [w.map Char.toUpper],
             currentGuess := w.map Char.toUpper,
             status := PStatus.active }

/-- The `submit-word` handler.  `word = none` models a missing/falsy payload
word (the source guard `!word || word.length !== 5`). -/
def submitWord (gs : GameState) (pid : String) (word : Option (List Char)) (now : Nat) :
    GameState × SubmitOutcome :=
  if gs.gameStatus ≠ GStatus.active then (gs, SubmitOutcome.errNoActiveGame)
  else
    match gs.players.find? (fun p => p.playerId == pid) with
    | none => (gs, SubmitOutcome.errPlayerNotInGame)
    | some player =>
      if player.isSolved then (gs, SubmitOutcome.errAlreadySolved)
      else
        match word with
        | none => (gs, SubmitOutcome.errInvalidWordLength)
        | some w =>
          if w.length ≠ 5 then (gs, SubmitOutcome.errInvalidWordLength)
          else if 6 ≤ player.guesses.length then (gs, SubmitOutcome.errAttemptsExhausted)
          else
            ({ gs with players := updateFirst pid (submitUpdate gs w now) gs.players },
             if w.map Char.toUpper = gs.targetWord then SubmitOutcome.solvedWord
             else if 6 ≤ player.guesses.length + 1 then SubmitOutcome.playerFailed
             else SubmitOutcome.feedbackSent
               (generateWordFeedback (w.map Char.toUpper) gs.targetWord))

theorem updateFirst_length (pid : String) (f : PlayerState → PlayerState) :
    ∀ (l : List PlayerState), (updateFirst pid f l).length = l.length := by
  intro l
  induction l with
  | nil => rfl
  | cons p ps ih =>
      by_cases hp : p.playerId = pid <;> simp [updateFirst, hp, ih]

theorem updateFirst_get (pid : String) (f : PlayerState → PlayerState) :
    ∀ (l : List PlayerState) (i : Nat) (hi : i < l.length)
      (hi2 : i < (updateFirst pid f l).length),
      (updateFirst pid f l).get ⟨i, hi2⟩ = l.get ⟨i, hi⟩ ∨
      ((updateFirst pid f l).get ⟨i, hi2⟩ = f (l.get ⟨i, hi⟩) ∧
        l.find? (fun r => r.playerId == pid) = some (l.get ⟨i, hi⟩)) := by
  intro l
  induction l with
  | nil => intro i hi _; simp at hi
  | cons p ps ih =>
      intro i hi hi2
      by_cases hp : p.playerId = pid
      · match i with
        | 0 =>
            right
            constructor
            · simp [updateFirst, hp]
            · simp [List.find?, hp]
        | i + 1 =>
            left
            simp [updateFirst, hp]
      · match i with
        | 0 =>
            left
            simp [updateFirst, hp]
        | i + 1 =>
            have hi3 : i < ps.length := by simpa using hi
            have hi4 : i < (updateFirst pid f ps).length := by
              rw [updateFirst_length]; exact hi3
            have hstep : (updateFirst pid f (p :: ps)).get ⟨i + 1, hi2⟩ =
                (updateFirst pid f ps).get ⟨i, hi4⟩ := by
              simp [updateFirst, hp]
            rcases ih i hi3 hi4 with h | ⟨h, hfind⟩
            · left
              rw [hstep, h]
              simp
            · right
              constructor
              · rw [hstep, h]
                simp
              · have hb : (p.playerId == pid) = false := by simp [hp]
                simp [List.find?, hb, hfind]

theorem updateFirst_mem (pid : String) (f : PlayerState → PlayerState) :
    ∀ (l : List PlayerState), ∀ q ∈ updateFirst pid f l,
      q ∈ l ∨ ∃ p, l.find? (fun r => r.playerId == pid) = some p ∧ q = f p := by
  intro l
  induction l with
  | nil => intro q hq; simp [updateFirst] at hq
  | cons p ps ih =>
      intro q hq
      by_cases hp : p.playerId = pid
      · simp [updateFirst, hp] at hq
        rcases hq with hq | hq
        · right
          exact ⟨p, by simp [List.find?, hp], hq⟩
        · left
          simp [hq]
      · simp [updateFirst, hp] at hq
        rcases hq with hq | hq
        · left
          simp [hq]
        · rcases ih q hq with h | ⟨r, hr, hqr⟩
          · left
            simp [h]
          · right
            refine ⟨r, ?_, hqr⟩
            have hb : (p.playerId == pid) = false := by simp [hp]
            simp [List.find?, hb, hr]

theorem submitUpdate_guesses_length (gs : GameState) (w : List Char) (now : Nat)
    (p : PlayerState) :
    (submitUpdate gs w now p).guesses.length = p.guesses.length + 1 := by
  unfold submitUpdate
  by_cases h1 : w.map Char.toUpper = gs.targetWord
  · simp [h1]
  · by_cases h2 : 6 ≤ p.guesses.length + 1 <;> simp [h1, h2]

/-- A player who has used all 6 attempts without solving. -/
def samplePlayerC4 : PlayerState :=
  { playerId := "a", username := "A",
    guesses := [['A','A','A','A','A'], ['B','B','B','B','B'],
      ['D','D','D','D','D'], ['F','F','F','F','F'],
      ['G','G','G','G','G'], ['H','H','H','H','H']],
    currentGuess := ['H','H','H','H','H'], isSolved := false,
    solveTime := some 5000, solveAttempts := some 6, rank := none,
    status := PStatus.failed, failedTime := some 5000 }

/-- A game whose only player has used all 6 attempts without solving. -/
def sampleGameC4 : GameState :=
  { roomId := "R1", category := "Science", targetWord := ['C','R','A','N','E'],
    gameStatus := GStatus.active, gameStartTime := 0, timeLimit := 300000,
    players := [samplePlayerC4] }

/-- **C4 counterexample.** The claim says every SubmitGuess after 6 accumulated
guesses fails with AttemptsExhausted regardless of the submitted word; but the
word-length guard runs first, so a 3-letter word submitted by the exhausted
player yields InvalidWordLength, not AttemptsExhausted. -/
theorem submit_after_six_counterexample :
    ((sampleGameC4.players.map (fun p => p.guesses.length)) = [6]) ∧
    (submitWord sampleGameC4 "a" (some ['A','B','C']) 6000).2 =
      SubmitOutcome.errInvalidWordLength ∧
    SubmitOutcome.errInvalidWordLength ≠ SubmitOutcome.errAttemptsExhausted := by
  decide

/-- **C4 (amended).** A SubmitGuess call with a 5-letter word made by a
not-yet-solved player who has already accumulated 6 guesses fails with
AttemptsExhausted and leaves the state unchanged; and no call ever pushes a
player beyond 6 stored guesses. -/
theorem submit_attempts_exhausted (gs : GameState) (pid : String) (w : List Char)
    (now : Nat) (player : PlayerState)
    (hfind : gs.players.find? (fun p => p.playerId == pid) = some player)
    (hact : gs.gameStatus = GStatus.active)
    (hns : player.isSolved = false)
    (hlen : w.length = 5)
    (hsix : 6 ≤ player.guesses.length) :
    submitWord gs pid (some w) now = (gs, SubmitOutcome.errAttemptsExhausted) ∧
    (∀ (gs2 : GameState) (pid2 : String) (word2 : Option (List Char)) (now2 : Nat),
      (∀ p ∈ gs2.players, p.guesses.length ≤ 6) →
      ∀ p ∈ (submitWord gs2 pid2 word2 now2).1.players, p.guesses.length ≤ 6) := by
  constructor
  · unfold submitWord
    rw [hact, hfind]
    simp [hns, hlen, hsix]
  · intro gs2 pid2 word2 now2 hcap q hq
    unfold submitWord at hq
    by_cases hact2 : gs2.gameStatus ≠ GStatus.active
    · simp [hact2] at hq
      exact hcap q hq
    · simp only [hact2, if_false] at hq
      cases hfind2 : gs2.players.find? (fun p => p.playerId == pid2) with
      | none =>
          rw [hfind2] at hq
          exact hcap q hq
      | some player2 =>
          rw [hfind2] at hq
          by_cases hsolved2 : player2.isSolved
          · simp [hsolved2] at hq
            exact hcap q hq
          · simp only [hsolved2, if_false] at hq
            cases word2 with
            | none => exact hcap q hq
            | some w2 =>
                by_cases hlen2 : w2.length ≠ 5
                · simp [hlen2] at hq
                  exact hcap q hq
                · simp only [hlen2, if_false] at hq
                  by_cases hsix2 : 6 ≤ player2.guesses.length
                  · simp [hsix2] at hq
                    exact hcap q hq
                  · simp only [hsix2, if_false] at hq
                    rcases updateFirst_mem pid2 (submitUpdate gs2 w2 now2)
                        gs2.players q hq with h | ⟨p0, hp0, rfl⟩
                    · exact hcap q h
                    · rw [hfind2] at hp0
                      injection hp0 with hp0
                      subst hp0
                      rw [submitUpdate_guesses_length]
                      omega

/-- Witness for C4 (amended): the exhausted player submits a 5-letter word and
gets AttemptsExhausted with the state unchanged. -/
theorem submit_attempts_exhausted_witness :
    submitWord sampleGameC4 "a" (some ['W','O','R','D','S']) 6000 =
      (sampleGameC4, SubmitOutcome.errAttemptsExhausted) ∧
    (∀ (gs2 : GameState) (pid2 : String) (word2 : Option (List Char)) (now2 : Nat),
      (∀ p ∈ gs2.players, p.guesses.length ≤ 6) →
      ∀ p ∈ (submitWord gs2 pid2 word2 now2).1.players, p.guesses.length ≤ 6) :=
  submit_attempts_exhausted sampleGameC4 "a" ['W','O','R','D','S'] 6000
    samplePlayerC4 (by decide) rfl rfl rfl (by decide)

/-! ## Session events and status monotonicity (C5)

The spec's scheduling model (§5) is an event-driven reactor handling one
inbound event at a time; a session is driven by guess submissions and by
`endGame` invocations (from the round timer or from the completion check).
`endGameStep` is the state effect of `endGame`: the force-fail loop plus the
rank mutation of the same player objects, and the `finished` flag. -/

/-- Rank the leaderboard assigned to a player id (the source mutates the same
objects that appear in the sorted lists; with distinct ids this lookup is that
aliasing). -/
def rankOf (ranked : List PlayerState) (pid : String) : Option Nat :=
  match ranked.find? (fun q => q.playerId == pid) with
  | some q => q.rank
  | none => none

/-- State effect of `endGame` (game.socket.js 717-869): force-fail the
still-active unsolved players, install the assigned ranks, mark the session
finished.  `endGame` has no guard on `gameStatus`, so neither does this. -/
def endGameStep (gs : GameState) (now : Nat) : GameState :=
  { gs with
    players := gs.players.map (fun p =>
      { forceFail now gs.gameStartTime p with
        rank := rankOf (endGameRank gs.players now gs.gameStartTime) p.playerId }),
    gameStatus := GStatus.finished }

inductive GEvent
  | submit (pid : String) (word : Option (List Char)) (now : Nat)
  | finalize (now : Nat)

def step (gs : GameState) : GEvent → GameState
  | GEvent.submit pid word now => (submitWord gs pid word now).1
  | GEvent.finalize now => endGameStep gs now

def steps (gs : GameState) : List GEvent → GameState
  | [] => gs
  | e :: es => steps (step gs e) es

/-- Invariant of reachable sessions: a player is marked solved exactly when
`isSolved`, and a failed player either used 6 guesses or the round is no
longer active.  The roster built by start-game satisfies it (all active,
nothing solved) and every event preserves it. -/
def sessionInv (gs : GameState) : Prop :=
  ∀ p ∈ gs.players,
    (p.isSolved = true ↔ p.status = PStatus.solved) ∧
    (p.status = PStatus.failed → 6 ≤ p.guesses.length ∨ gs.gameStatus ≠ GStatus.active)

instance (gs : GameState) : Decidable (sessionInv gs) := by
  unfold sessionInv
  infer_instance

/-- Every submit-word call either leaves the session unchanged or — when all
guards pass — updates exactly the first player matching the id. -/
theorem submitWord_characterization (gs : GameState) (pid : String)
    (word : Option (List Char)) (now : Nat) :
    (submitWord gs pid word now).1 = gs ∨
    ∃ player w,
      gs.players.find? (fun p => p.playerId == pid) = some player ∧
      gs.gameStatus = GStatus.active ∧
      player.isSolved = false ∧
      word = some w ∧ w.length = 5 ∧ player.guesses.length < 6 ∧
      (submitWord gs pid word now).1 =
        { gs with players := updateFirst pid (submitUpdate gs w now) gs.players } := by
  unfold submitWord
  by_cases h1 : gs.gameStatus ≠ GStatus.active
  · left
    rw [if_pos h1]
  · rw [if_neg h1]
    push_neg at h1
    cases hfind : gs.players.find? (fun p => p.playerId == pid) with
    | none => left; rfl
    | some player =>
        dsimp only
        by_cases hsolved : player.isSolved = true
        · left
          rw [if_pos hsolved]
        · rw [if_neg hsolved]
          have hsolved2 : player.isSolved = false := by
            cases hb : player.isSolved
            · rfl
            · exact absurd hb hsolved
          cases word with
          | none => left; rfl
          | some w =>
              dsimp only
              by_cases hlen : w.length ≠ 5
              · left
                rw [if_pos hlen]
              · rw [if_neg hlen]
                push_neg at hlen
                by_cases hsix : 6 ≤ player.guesses.length
                · left
                  rw [if_pos hsix]
                · rw [if_neg hsix]
                  right
                  exact ⟨player, w, rfl, h1, hsolved2, rfl, hlen, by omega, rfl⟩

theorem step_players_length (gs : GameState) (e : GEvent) :
    (step gs e).players.length = gs.players.length := by
  cases e with
  | submit pid word now =>
      rcases submitWord_characterization gs pid word now with h |
        ⟨player, w, _, _, _, _, _, _, h⟩
      · simp [step, h]
      · simp [step, h, updateFirst_length]
  | finalize now => simp [step, endGameStep]

theorem forceFail_status_preserved (now start : Nat) (p : PlayerState)
    (h : p.status ≠ PStatus.active) : (forceFail now start p).status = p.status := by
  unfold forceFail
  split
  · next hcond => exact absurd hcond.1 h
  · rfl

theorem step_status_preserved (gs : GameState) (e : GEvent) (hinv : sessionInv gs)
    (i : Nat) (hi : i < gs.players.length) (hi2 : i < (step gs e).players.length)
    (hna : (gs.players.get ⟨i, hi⟩).status ≠ PStatus.active) :
    ((step gs e).players.get ⟨i, hi2⟩).status = (gs.players.get ⟨i, hi⟩).status := by
  cases e with
  | submit pid word now =>
      rcases submitWord_characterization gs pid word now with h |
        ⟨player, w, hfind, hact, hns, hword, hwlen, hlt, h⟩
      · have : step gs (GEvent.submit pid word now) = gs := h
        revert hi2
        rw [this]
        intro hi2
        rfl
      · have hstep : step gs (GEvent.submit pid word now) =
            { gs with players := updateFirst pid (submitUpdate gs w now) gs.players } := h
        revert hi2
        rw [hstep]
        intro hi2
        have hi2u : i < (updateFirst pid (submitUpdate gs w now) gs.players).length := hi2
        rcases updateFirst_get pid (submitUpdate gs w now) gs.players i hi hi2u with
          hu | ⟨hu, hfind2⟩
        · rw [hu]
        · rw [hfind] at hfind2
          injection hfind2 with hfind2
          subst hfind2
          have hmem : gs.players.get ⟨i, hi⟩ ∈ gs.players := List.get_mem gs.players i hi
          have hinvp := hinv _ hmem
          have hstat : (gs.players.get ⟨i, hi⟩).status = PStatus.active := by
            cases hst : (gs.players.get ⟨i, hi⟩).status with
            | active => rfl
            | solved =>
                have h5 := hinvp.1.mpr hst
                rw [hns] at h5
                exact absurd h5 (by simp)
            | failed =>
                rcases hinvp.2 hst with hg | hgs
                · omega
                · exact absurd hact hgs
          exact absurd hstat hna
  | finalize now =>
      have hmap : (step gs (GEvent.finalize now)).players =
          gs.players.map (fun p =>
            { forceFail now gs.gameStartTime p with
              rank := rankOf (endGameRank gs.players now gs.gameStartTime) p.playerId }) := rfl
      revert hi2
      rw [hmap]
      intro hi2
      rw [List.get_map]
      exact forceFail_status_preserved now gs.gameStartTime _ hna

theorem step_inv (gs : GameState) (e : GEvent) (hinv : sessionInv gs) :
    sessionInv (step gs e) := by
  cases e with
  | submit pid word now =>
      rcases submitWord_characterization gs pid word now with h |
        ⟨player, w, hfind, hact, hns, hword, hwlen, hlt, h⟩
      · have hs : step gs (GEvent.submit pid word now) = gs := h
        rw [hs]
        exact hinv
      · have hs : step gs (GEvent.submit pid word now) =
            { gs with players := updateFirst pid (submitUpdate gs w now) gs.players } := h
        rw [hs]
        intro q hq
        rcases updateFirst_mem pid (submitUpdate gs w now) gs.players q hq with
          hq2 | ⟨p0, hp0, rfl⟩
        · exact hinv q hq2
        · rw [hfind] at hp0
          injection hp0 with hp0
          subst hp0
          unfold submitUpdate
          by_cases hc1 : w.map Char.toUpper = gs.targetWord
          · simp [hc1]
          · by_cases hc2 : 6 ≤ player.guesses.length + 1
            · simp [hc1, hc2]
            · simp [hc1, hc2, hns]
  | finalize now =>
      intro q hq
      have hq2 : q ∈ gs.players.map (fun p =>
          { forceFail now gs.gameStartTime p with
            rank := rankOf (endGameRank gs.players now gs.gameStartTime) p.playerId }) := hq
      obtain ⟨p, hp, rfl⟩ := List.mem_map.mp hq2
      constructor
      · show (forceFail now gs.gameStartTime p).isSolved = true ↔
          (forceFail now gs.gameStartTime p).status = PStatus.solved
        unfold forceFail
        split
        · next hcond =>
            simp [hcond.2]
        · exact (hinv p hp).1
      · intro _
        right
        show GStatus.finished ≠ GStatus.active
        simp

/-- **C5.** With events processed one at a time (the spec's reactor model),
for every session satisfying the reachable-session invariant and every
sequence of events (guess submissions and finalizations), each player's
status is monotonic: once it is not ACTIVE it never changes again — it never
returns to ACTIVE and never moves between SOLVED and FAILED. -/
theorem player_status_monotonic (gs : GameState) (es : List GEvent)
    (hinv : sessionInv gs) :
    (steps gs es).players.length = gs.players.length ∧
    ∀ (i : Nat) (hi : i < gs.players.length)
      (hi2 : i < (steps gs es).players.length),
      (gs.players.get ⟨i, hi⟩).status ≠ PStatus.active →
      ((steps gs es).players.get ⟨i, hi2⟩).status = (gs.players.get ⟨i, hi⟩).status := by
  induction es generalizing gs with
  | nil => exact ⟨rfl, fun i hi hi2 _ => rfl⟩
  | cons e es ih =>
      have hinv2 := step_inv gs e hinv
      obtain ⟨hlen2, hpres⟩ := ih (step gs e) hinv2
      have hlen1 := step_players_length gs e
      refine ⟨?_, ?_⟩
      · show (steps (step gs e) es).players.length = gs.players.length
        omega
      · intro i hi hi2 hna
        have hi1 : i < (step gs e).players.length := by omega
        have h1 := step_status_preserved gs e hinv i hi hi1 hna
        have hna2 : ((step gs e).players.get ⟨i, hi1⟩).status ≠ PStatus.active := by
          rw [h1]
          exact hna
        have h2 := hpres i hi1 hi2 hna2
        exact h2.trans h1

/-- A two-player game: player a solved, player b still active. -/
def sampleGameC5 : GameState :=
  { roomId := "R5", category := "Science", targetWord := ['C','R','A','N','E'],
    gameStatus := GStatus.active, gameStartTime := 0, timeLimit := 300000,
    players := [
      { playerId := "a", username := "A", guesses := [['C','R','A','N','E']],
        currentGuess := ['C','R','A','N','E'], isSolved := true,
        solveTime := some 1000, solveAttempts := some 1, rank := none,
        status := PStatus.solved, failedTime := none },
      { playerId := "b", username := "B", guesses := [],
        currentGuess := [], isSolved := false,
        solveTime := none, solveAttempts := none, rank := none,
        status := PStatus.active, failedTime := none }] }

/-- Witness for C5: after a further guess by player b and the timeout
finalization, player a's SOLVED status is untouched. -/
theorem player_status_monotonic_witness :
    sessionInv sampleGameC5 ∧
    ((steps sampleGameC5
        [GEvent.submit "b" (some ['W','R','O','N','G']) 2000,
         GEvent.finalize 300000]).players.length =
      sampleGameC5.players.length ∧
    ∀ (i : Nat) (hi : i < sampleGameC5.players.length)
      (hi2 : i < (steps sampleGameC5
        [GEvent.submit "b" (some ['W','R','O','N','G']) 2000,
         GEvent.finalize 300000]).players.length),
      (sampleGameC5.players.get ⟨i, hi⟩).status ≠ PStatus.active →
      ((steps sampleGameC5
        [GEvent.submit "b" (some ['W','R','O','N','G']) 2000,
         GEvent.finalize 300000]).players.get ⟨i, hi2⟩).status =
        (sampleGameC5.players.get ⟨i, hi⟩).status) :=
  ⟨by decide, player_status_monotonic sampleGameC5
    [GEvent.submit "b" (some ['W','R','O','N','G']) 2000,
     GEvent.finalize 300000] (by decide)⟩

/-! ## Room membership: leave/disconnect roster logic and join (C6, C7) -/

structure Member where
  mid : String
  username : String
deriving DecidableEq, Repr

structure RoomRec where
  roomId : String
  owner : String
  players : List Member
deriving DecidableEq, Repr

/-- Shared roster-removal algorithm of the leave-room handler
(game.socket.js 142-172) and the disconnect handler (604-632), which are
textually identical: filter the player out of `players`; if the owner left
and members remain, the member at the random index
(`Math.floor(Math.random() * remainingPlayers.length)`) becomes the owner;
a room left empty is deleted (`none`). -/
def removeFromRoom (room : RoomRec) (pid : String) (randIdx : Nat) : Option RoomRec :=
  let isOwner := room.owner = pid
  let remaining := room.players.filter (fun m => !(m.mid == pid))
  let owner2 :=
    if isOwner ∧ 0 < remaining.length then
      match remaining[randIdx]? with
      | some m => m.mid
      | none => room.owner
    else room.owner
  if remaining.length = 0 then none
  else some { room with players := remaining, owner := owner2 }

/-- **C6.** After a leave or disconnect removes a player, if the room still
exists (is non-empty) its owner is one of the remaining members: when the
departing player was the owner, the randomly chosen replacement is drawn from
the remaining members; otherwise the owner stays and still belongs to the
roster. -/
theorem owner_in_members_after_remove (room : RoomRec) (pid : String) (randIdx : Nat)
    (room2 : RoomRec)
    (hpre : room.owner ∈ room.players.map Member.mid)
    (hrand : room.owner = pid →
      randIdx < (room.players.filter (fun m => !(m.mid == pid))).length)
    (hres : removeFromRoom room pid randIdx = some room2) :
    room2.players ≠ [] ∧ room2.owner ∈ room2.players.map Member.mid := by
  unfold removeFromRoom at hres
  by_cases hempty : (room.players.filter (fun m => !(m.mid == pid))).length = 0
  · rw [if_pos hempty] at hres
    exact absurd hres (by simp)
  · rw [if_neg hempty] at hres
    injection hres with hres
    subst hres
    constructor
    · intro hcontra
      have h9 : room.players.filter (fun m => !(m.mid == pid)) = [] := hcontra
      rw [h9] at hempty
      exact hempty rfl
    · by_cases howner : room.owner = pid ∧
        0 < (room.players.filter (fun m => !(m.mid == pid))).length
      · rw [if_pos howner]
        have hlt := hrand howner.1
        cases hget : (room.players.filter (fun m => !(m.mid == pid)))[randIdx]? with
        | none =>
            have := List.getElem?_eq_none_iff.mp hget
            omega
        | some m =>
            have hmmem : m ∈ room.players.filter (fun m => !(m.mid == pid)) :=
              List.getElem?_mem hget
            exact List.mem_map.mpr ⟨m, hmmem, rfl⟩
      · rw [if_neg howner]
        have hnp : room.owner ≠ pid := by
          intro h
          exact howner ⟨h, by omega⟩
        obtain ⟨m, hm, hmid⟩ := List.mem_map.mp hpre
        refine List.mem_map.mpr ⟨m, ?_, hmid⟩
        refine List.mem_filter.mpr ⟨hm, ?_⟩
        simp only [Bool.not_eq_true']
        rw [beq_eq_false_iff_ne]
        rw [hmid]
        exact hnp

/-- Witness for C6: owner A leaves room {A,B,C}; with random index 1 the new
owner is C, a remaining member. -/
theorem owner_in_members_after_remove_witness :
    (removeFromRoom
      { roomId := "R6", owner := "A",
        players := [⟨"A", "a"⟩, ⟨"B", "b"⟩, ⟨"C", "c"⟩] } "A" 1 =
      some { roomId := "R6", owner := "C", players := [⟨"B", "b"⟩, ⟨"C", "c"⟩] }) ∧
    ({ roomId := "R6", owner := "C",
       players := [⟨"B", "b"⟩, ⟨"C", "c"⟩] } : RoomRec).players ≠ [] ∧
    ({ roomId := "R6", owner := "C",
       players := [⟨"B", "b"⟩, ⟨"C", "c"⟩] } : RoomRec).owner ∈
      ({ roomId := "R6", owner := "C",
         players := [⟨"B", "b"⟩, ⟨"C", "c"⟩] } : RoomRec).players.map Member.mid :=
  ⟨by decide,
   owner_in_members_after_remove
     { roomId := "R6", owner := "A",
       players := [⟨"A", "a"⟩, ⟨"B", "b"⟩, ⟨"C", "c"⟩] } "A" 1
     { roomId := "R6", owner := "C", players := [⟨"B", "b"⟩, ⟨"C", "c"⟩] }
     (by decide) (fun _ => by decide) (by decide)⟩

inductive JoinOutcome
  | errMissingData
  | errNotFound
  | errRoomFull
  | joined (room : RoomRec)
deriving DecidableEq, Repr

/-- The join-room handler (game.socket.js 54-121): missing-data guard, room
lookup, the capacity guard `room.players.length >= 7` (before the membership
test), then the already-member test; joinRoom in room.controllers.js (63-81)
performs the same checks in the same order. -/
def joinRoom (rooms : List RoomRec) (roomId pid username : String) :
    List RoomRec × JoinOutcome :=
  if roomId = "" ∨ pid = "" ∨ username = "" then (rooms, JoinOutcome.errMissingData)
  else
    match rooms.find? (fun r => r.roomId == roomId) with
    | none => (rooms, JoinOutcome.errNotFound)
    | some room =>
      if 7 ≤ room.players.length then (rooms, JoinOutcome.errRoomFull)
      else if room.players.any (fun m => m.mid == pid) then (rooms, JoinOutcome.joined room)
      else
        (rooms.map (fun r => if r.roomId == roomId then
            { room with players := room.players ++ [⟨pid, username⟩] } else r),
         JoinOutcome.joined { room with players := room.players ++ [⟨pid, username⟩] })

/-- A full room: 7 members, among them p1. -/
def fullRoomC7 : RoomRec :=
  { roomId := "FULL1", owner := "p1",
    players := [⟨"p1", "u1"⟩, ⟨"p2", "u2"⟩, ⟨"p3", "u3"⟩, ⟨"p4", "u4"⟩,
      ⟨"p5", "u5"⟩, ⟨"p6", "u6"⟩, ⟨"p7", "u7"⟩] }

/-- **C7 counterexample.** The claim says JoinRoom is idempotent for an
existing member at every room size including 7; but the capacity guard runs
before the membership test, so the existing member p1 of a 7-member room
gets RoomFull instead of the idempotent success reply. -/
theorem join_full_room_member_counterexample :
    (fullRoomC7.players.any (fun m => m.mid == "p1") = true) ∧
    fullRoomC7.players.length = 7 ∧
    joinRoom [fullRoomC7] "FULL1" "p1" "u1" = ([fullRoomC7], JoinOutcome.errRoomFull) ∧
    JoinOutcome.errRoomFull ≠ JoinOutcome.joined fullRoomC7 := by
  decide

/-- **C7 (amended).** JoinRoom for a player who is already a member succeeds
and leaves the store unchanged whenever the room has fewer than 7 members;
at 7 members the capacity guard fires first and even an existing member gets
RoomFull (the store again unchanged). -/
theorem join_existing_member (rooms : List RoomRec) (roomId pid username : String)
    (room : RoomRec)
    (hne : ¬(roomId = "" ∨ pid = "" ∨ username = ""))
    (hfind : rooms.find? (fun r => r.roomId == roomId) = some room)
    (hmem : room.players.any (fun m => m.mid == pid) = true) :
    (room.players.length < 7 →
      joinRoom rooms roomId pid username = (rooms, JoinOutcome.joined room)) ∧
    (7 ≤ room.players.length →
      joinRoom rooms roomId pid username = (rooms, JoinOutcome.errRoomFull)) := by
  unfold joinRoom
  rw [if_neg hne, hfind]
  dsimp only
  constructor
  · intro hlt
    rw [if_neg (show ¬7 ≤ room.players.length by omega), if_pos hmem]
  · intro hge
    rw [if_pos hge]

/-- A two-member room used by the C7 witness. -/
def smallRoomC7 : RoomRec :=
  { roomId := "SM1", owner := "p1", players := [⟨"p1", "u1"⟩, ⟨"p2", "u2"⟩] }

/-- Witness for C7 (amended): an existing member of a 2-member room rejoins
idempotently; the 7-member clause is vacuous there. -/
theorem join_existing_member_witness :
    (¬("SM1" = "" ∨ "p1" = "" ∨ "u1" = "")) ∧
    (((smallRoomC7.players.length < 7 →
      joinRoom [smallRoomC7] "SM1" "p1" "u1" = ([smallRoomC7], JoinOutcome.joined smallRoomC7)) ∧
    (7 ≤ smallRoomC7.players.length →
      joinRoom [smallRoomC7] "SM1" "p1" "u1" = ([smallRoomC7], JoinOutcome.errRoomFull)))) :=
  ⟨by decide,
   join_existing_member [smallRoomC7] "SM1" "p1" "u1" smallRoomC7
     (by decide) (by decide) (by decide)⟩

/-! ## Timer discipline for one room (C3)

Sessions are tagged with a generation (which start created them); pending
`setTimeout`/`setInterval` callbacks are recorded with the generation that
armed them.  `startGameTimer` (game.socket.js 667-693) reads the session out
of `activeGames` and clears only the `gameTimer` handle stored on *that*
session object, so handles stored on a replaced session are never cleared.
A fired timeout's callback is `() => endGame(roomId)` (line 677-679), which
finalizes whatever session the room holds at firing time. -/

structure TSession where
  gen : Nat
  gameStatus : GStatus
  gameTimer : Option Nat
  timerInterval : Option Nat
deriving DecidableEq, Repr

structure TimerSys where
  current : Option TSession
  pendingTimeouts : List (Nat × Nat)
  pendingTicks : List (Nat × Nat)
  nextId : Nat
  nextGen : Nat
deriving DecidableEq, Repr

def timerSysInit : TimerSys :=
  { current := none, pendingTimeouts := [], pendingTicks := [], nextId := 0, nextGen := 0 }

/-- `startGameTimer` (667-693): clear the timer handle stored on the current
session (if any), arm a fresh timeout and a fresh tick for it.  The interval
handle is overwritten without clearing, as in the source. -/
def startGameTimer (s : TimerSys) : TimerSys :=
  match s.current with
  | none => s
  | some sess =>
      let pend := match sess.gameTimer with
        | some tid => s.pendingTimeouts.filter (fun t => !(t.1 == tid))
        | none => s.pendingTimeouts
      { s with
        current := some { sess with
                          gameTimer := some s.nextId,
                          timerInterval := some (s.nextId + 1) },
        pendingTimeouts := pend ++ [(s.nextId, sess.gen)],
        pendingTicks := s.pendingTicks ++ [(s.nextId + 1, sess.gen)],
        nextId := s.nextId + 2 }

/-- The start-game handler's session/timer effect (225-321): store a fresh
session over whatever was there, then `startGameTimer`. -/
def startGameEvt (s : TimerSys) : TimerSys :=
  startGameTimer
    { s with
      current := some { gen := s.nextGen, gameStatus := GStatus.active,
                        gameTimer := none, timerInterval := none },
      nextGen := s.nextGen + 1 }

/-- The start-again handler's session/timer effect (328-414):
`activeGames.delete(roomId)`, store a fresh session, then `startGameTimer`. -/
def startAgainEvt (s : TimerSys) : TimerSys :=
  startGameTimer
    { s with
      current := some { gen := s.nextGen, gameStatus := GStatus.active,
                        gameTimer := none, timerInterval := none },
      nextGen := s.nextGen + 1 }

/-- Timer effect of `endGame` (717-723, 837): clear the current session's own
handles and mark it finished. -/
def endGameT (s : TimerSys) : TimerSys :=
  match s.current with
  | none => s
  | some sess =>
      let p1 := match sess.gameTimer with
        | some tid => s.pendingTimeouts.filter (fun t => !(t.1 == tid))
        | none => s.pendingTimeouts
      let p2 := match sess.timerInterval with
        | some tid => s.pendingTicks.filter (fun t => !(t.1 == tid))
        | none => s.pendingTicks
      { s with current := some { sess with gameStatus := GStatus.finished },
               pendingTimeouts := p1, pendingTicks := p2 }

/-- The runtime delivering a pending timeout: remove it from the pending set
and run its callback `() => endGame(roomId)` against the room's current
session. -/
def fireTimeout (s : TimerSys) (tid : Nat) : TimerSys :=
  if s.pendingTimeouts.any (fun t => t.1 == tid) then
    endGameT { s with pendingTimeouts := s.pendingTimeouts.filter (fun t => !(t.1 == tid)) }
  else s

/-- **C3 divergence.** Start a round (generation 0), restart while it is
still active (generation 1): generation 0's timeout `(0, 0)` is still armed —
nothing cancelled it — and when it elapses, its callback finalizes the
replacement: the generation-1 session ends up `finished` through a timer
armed for generation 0.  This refutes the claim that starting or restarting
cancels the prior session's outstanding timer. -/
theorem stale_timer_finalizes_replacement :
    ((startAgainEvt (startGameEvt timerSysInit)).pendingTimeouts.any
      (fun t => t.1 == 0 && t.2 == 0) = true) ∧
    ((startAgainEvt (startGameEvt timerSysInit)).pendingTicks.any
      (fun t => t.1 == 1 && t.2 == 0) = true) ∧
    ((startAgainEvt (startGameEvt timerSysInit)).current.map TSession.gen = some 1) ∧
    ((fireTimeout (startAgainEvt (startGameEvt timerSysInit)) 0).current.map
      (fun sess => (sess.gen, sess.gameStatus)) = some (1, GStatus.finished)) := by
  decide

/-! ## Game-state query versus sanitized start broadcast (C8) -/

/-- Per-player record included in the game-started broadcast (302-307). -/
structure PlayerPublic where
  playerId : String
  username : String
  isSolved : Bool
  status : PStatus
deriving DecidableEq, Repr

/-- The sanitized `game-started` payload (296-308): it has no target word. -/
structure GameStartedPayload where
  roomId : String
  category : String
  gameStatus : GStatus
  gameStartTime : Nat
  timeLimit : Nat
  players : List PlayerPublic
deriving DecidableEq, Repr

def gameStartedPayload (gs : GameState) : GameStartedPayload :=
  { roomId := gs.roomId, category := gs.category, gameStatus := gs.gameStatus,
    gameStartTime := gs.gameStartTime, timeLimit := gs.timeLimit,
    players := gs.players.map (fun p =>
      { playerId := p.playerId, username := p.username,
        isSolved := p.isSolved, status := p.status }) }

/-- The get-game-state handler (547-556): look the room up in `activeGames`
and emit the entire stored session object, unsanitized. -/
def getGameState (games : List (String × GameState)) (roomId : String) :
    Option GameState :=
  (games.find? (fun e => e.1 == roomId)).map (fun e => e.2)

/-- **C8.** While a session is stored for the room, get-game-state returns
the complete session object — including the hidden targetWord — to any
requesting connection, whereas the game-started broadcast payload is
independent of the target word (sanitization applies only there). -/
theorem get_game_state_reveals_target (games : List (String × GameState))
    (roomId rid : String) (gs : GameState)
    (hfind : games.find? (fun e => e.1 == roomId) = some (rid, gs)) :
    getGameState games roomId = some gs ∧
    (getGameState games roomId).map GameState.targetWord = some gs.targetWord ∧
    (∀ w : List Char, gameStartedPayload { gs with targetWord := w } =
      gameStartedPayload gs) := by
  refine ⟨?_, ?_, ?_⟩ <;> simp [getGameState, hfind, gameStartedPayload]

/-- A tiny active session used by the C8 witness. -/
def sampleGameC8 : GameState :=
  { roomId := "R8", category := "Science", targetWord := ['C','R','A','N','E'],
    gameStatus := GStatus.active, gameStartTime := 0, timeLimit := 300000,
    players := [] }

/-- Witness for C8: the stored session is returned whole, target word and
all. -/
theorem get_game_state_reveals_target_witness :
    getGameState [("R8", sampleGameC8)] "R8" = some sampleGameC8 ∧
    (getGameState [("R8", sampleGameC8)] "R8").map GameState.targetWord =
      some sampleGameC8.targetWord ∧
    (∀ w : List Char, gameStartedPayload { sampleGameC8 with targetWord := w } =
      gameStartedPayload sampleGameC8) :=
  get_game_state_reveals_target [("R8", sampleGameC8)] "R8" "R8" sampleGameC8 rfl

/-! ## Word supplier and start-game category (C9) -/

/-- The five fixed categories of WordService (wordService.js 5-31), in object
key order. -/
def categoriesKeys : List String := ["science", "computer", "nature", "space", "food"]

/-- Display name of each category (`this.categories[k].name`). -/
def categoryName (k : String) : String :=
  if k = "science" then "Science"
  else if k = "computer" then "Computer & Technology"
  else if k = "nature" then "Nature & Environment"
  else if k = "space" then "Space & Astronomy"
  else if k = "food" then "Food & Cuisine"
  else ""

/-- One draw of the supplier's randomness: which of the five categories
`getRandomWord` picks (wordService.js 171-175), and the word drawn from that
category's pool. -/
structure WordDraw where
  catIdx : Fin 5
  word : List Char

/-- `getRandomWord` (171-175) composed with `getWordFromCategory` (43-82):
the upper-cased drawn word together with the drawn category's display name. -/
def getRandomWord (d : WordDraw) : List Char × String :=
  (d.word.map Char.toUpper, categoryName (categoriesKeys.getD d.catIdx.val ""))

inductive StartOutcome
  | errNotOwner
  | errNotEnoughPlayers
  | started (gs : GameState)
deriving DecidableEq, Repr

/-- The start-game handler (game.socket.js 225-321).  The request's
`category` field is destructured at line 227 but never read afterwards: the
word comes from `getRandomWord`, and the stored session category is the drawn
word's category name. -/
def startGame (room : RoomRec) (pid : String) (category : String) (d : WordDraw)
    (now : Nat) : StartOutcome :=
  if room.owner ≠ pid then StartOutcome.errNotOwner
  else if room.players.length < 2 then StartOutcome.errNotEnoughPlayers
  else
    StartOutcome.started
      { roomId := room.roomId,
        category := (getRandomWord d).2,
        targetWord := (getRandomWord d).1,
        gameStatus := GStatus.active,
        gameStartTime := now,
        timeLimit := 300000,
        players := room.players.map (fun m =>
          { playerId := m.mid, username := m.username, guesses := [],
            currentGuess := [], isSolved := false, solveTime := none,
            solveAttempts := none, rank := none, status := PStatus.active,
            failedTime := none }) }

theorem categoryName_getD_mem (i : Fin 5) :
    categoryName (categoriesKeys.getD i.val "") ∈ categoriesKeys.map categoryName := by
  fin_cases i <;> decide

/-- **C9.** StartGame ignores its category argument: for every pair of
requested categories the handler's result is identical, and on success the
session's category is the one determined by the supplier's random draw over
its five fixed categories — never by the request. -/
theorem start_game_ignores_category (room : RoomRec) (pid : String)
    (c1 c2 : String) (d : WordDraw) (now : Nat) :
    startGame room pid c1 d now = startGame room pid c2 d now ∧
    (∀ gs : GameState, startGame room pid c1 d now = StartOutcome.started gs →
      gs.category = categoryName (categoriesKeys.getD d.catIdx.val "") ∧
      gs.category ∈ categoriesKeys.map categoryName ∧
      gs.targetWord = d.word.map Char.toUpper) := by
  constructor
  · rfl
  · intro gs hgs
    unfold startGame at hgs
    by_cases h1 : room.owner ≠ pid
    · rw [if_pos h1] at hgs
      exact absurd hgs (by simp)
    · rw [if_neg h1] at hgs
      by_cases h2 : room.players.length < 2
      · rw [if_pos h2] at hgs
        exact absurd hgs (by simp)
      · rw [if_neg h2] at hgs
        injection hgs with hgs
        subst hgs
        exact ⟨rfl, categoryName_getD_mem d.catIdx, rfl⟩

/-- A two-member room used by the C9 witness. -/
def sampleRoomC9 : RoomRec :=
  { roomId := "R9", owner := "p1", players := [⟨"p1", "u1"⟩, ⟨"p2", "u2"⟩] }

/-- Witness for C9: requesting category "space" and category "food" yields
the same session; its category is the drawn one (index 4 = food pool here). -/
theorem start_game_ignores_category_witness :
    startGame sampleRoomC9 "p1" "space" ⟨⟨4, by decide⟩, ['m','a','p','l','e']⟩ 0 =
      startGame sampleRoomC9 "p1" "food" ⟨⟨4, by decide⟩, ['m','a','p','l','e']⟩ 0 ∧
    (∀ gs : GameState,
      startGame sampleRoomC9 "p1" "space" ⟨⟨4, by decide⟩, ['m','a','p','l','e']⟩ 0 =
        StartOutcome.started gs →
      gs.category = categoryName (categoriesKeys.getD
        (⟨4, by decide⟩ : Fin 5).val "") ∧
      gs.category ∈ categoriesKeys.map categoryName ∧
      gs.targetWord = ['m','a','p','l','e'].map Char.toUpper) :=
  start_game_ignores_category sampleRoomC9 "p1" "space" "food"
    ⟨⟨4, by decide⟩, ['m','a','p','l','e']⟩ 0

/-! ## Disconnect without authentication (C10) -/

structure Socket where
  sid : String
  playerId : Option String
deriving DecidableEq, Repr

structure ServerState where
  rooms : List RoomRec
  activeGames : List (String × GameState)
  playerSockets : List (String × String)
  roomSockets : List (String × List String)
deriving DecidableEq, Repr

/-- Roster/session effect of the disconnect handler for one affected room
(game.socket.js 595-651): the same roster logic as leave-room, deleting the
room and its session when it empties. -/
def disconnectRoomUpdate (st : ServerState) (roomId pid : String) (randIdx : Nat) :
    ServerState :=
  match st.rooms.find? (fun r => r.roomId == roomId) with
  | none => st
  | some room =>
      match removeFromRoom room pid randIdx with
      | none =>
          { st with rooms := st.rooms.filter (fun r => !(r.roomId == roomId)),
                    activeGames := st.activeGames.filter (fun e => !(e.1 == roomId)) }
      | some room2 =>
          { st with rooms := st.rooms.map (fun r =>
              if r.roomId == roomId then room2 else r) }

/-- The disconnect handler (game.socket.js 579-659).  It resolves the player
id from `socket.playerId`, which only the authenticate event sets
(sockets/index.js 113-146; join-room stores map entries but never writes
`socket.playerId`), and returns at line 583 — before even the socket-set
bookkeeping — when that field is absent. -/
def handleDisconnect (st : ServerState) (sock : Socket) (rand : String → Nat) :
    ServerState :=
  match sock.playerId with
  | none => st
  | some pid =>
      let playerRooms := (st.roomSockets.filter
        (fun rs => rs.2.contains sock.sid)).map (fun rs => rs.1)
      let st1 := { st with roomSockets := st.roomSockets.map (fun rs =>
          if rs.2.contains sock.sid then (rs.1, rs.2.filter (fun s => !(s == sock.sid)))
          else rs) }
      let st2 := playerRooms.foldl (fun acc roomId =>
          disconnectRoomUpdate acc roomId pid (rand roomId)) st1
      { st2 with playerSockets := st2.playerSockets.filter (fun e => !(e.1 == pid)) }

/-- **C10.** For a socket that never emitted authenticate (`playerId` unset),
disconnect changes nothing: every room roster, owner assignment and game
session is unchanged — in fact the handler returns before its socket-set
bookkeeping, so the whole server state is untouched. -/
theorem disconnect_unauthenticated_noop (st : ServerState) (sock : Socket)
    (rand : String → Nat) (hauth : sock.playerId = none) :
    handleDisconnect st sock rand = st ∧
    (handleDisconnect st sock rand).rooms = st.rooms ∧
    (handleDisconnect st sock rand).activeGames = st.activeGames := by
  unfold handleDisconnect
  rw [hauth]
  exact ⟨rfl, rfl, rfl⟩

/-- Witness for C10: a concrete unauthenticated socket that had joined a room
(its id sits in the room's socket set) disconnects; the state is unchanged. -/
theorem disconnect_unauthenticated_noop_witness :
    handleDisconnect
      { rooms := [{ roomId := "RX", owner := "p1",
                    players := [⟨"p1", "u1"⟩, ⟨"p2", "u2"⟩] }],
        activeGames := [], playerSockets := [("p1", "s1")],
        roomSockets := [("RX", ["s1", "s2"])] }
      { sid := "s2", playerId := none } (fun _ => 0) =
    { rooms := [{ roomId := "RX", owner := "p1",
                  players := [⟨"p1", "u1"⟩, ⟨"p2", "u2"⟩] }],
      activeGames := [], playerSockets := [("p1", "s1")],
      roomSockets := [("RX", ["s1", "s2"])] } :=
  (disconnect_unauthenticated_noop
    { rooms := [{ roomId := "RX", owner := "p1",
                  players := [⟨"p1", "u1"⟩, ⟨"p2", "u2"⟩] }],
      activeGames := [], playerSockets := [("p1", "s1")],
      roomSockets := [("RX", ["s1", "s2"])] }
    { sid := "s2", playerId := none } (fun _ => 0) rfl).1

end Wordzy
